import Mathlib

/-!
# Verification of `fetch_jobs.js` (daily-job-posting)

A shallow embedding of the daily job fetcher script.  The script queries a
search provider once per role query, classifies postings as published
"today", removes duplicates, tracks a search-credit quota, and renders one
report section per role.  External I/O (HTTP transport, email delivery) is
modelled by passing the observed responses in as data and collecting the
outgoing messages as data.
-/

namespace DailyJobFetcher

/-- A job posting as consumed by the script.  `posted_at` models
`job.detected_extensions?.posted_at` (absent when the provider omitted it)
and `apply_link` models `job.apply_options?.[0]?.link`. -/
structure Job where
  title : String
  company_name : String
  location : String
  posted_at : Option String
  apply_link : Option String
deriving DecidableEq

/-!
JS string primitives are modelled on `List Char`: `toLowerCase` and `trim`
restricted to ASCII (all strings in the source's domain of interest are
ASCII), and `\b...\b` regular expressions by splitting the string into
maximal runs of JS word characters `[A-Za-z0-9_]`.
-/

/-- JS `String.prototype.trim` on a character list (ASCII whitespace). -/
def jsTrim (l : List Char) : List Char :=
  ((l.dropWhile Char.isWhitespace).reverse.dropWhile Char.isWhitespace).reverse

/-- `normalizeText(value) = (value || "").trim().toLowerCase()` from the
source (argument already a string here, so `|| ""` is the identity). -/
def normalizeText (value : String) : String :=
  ⟨(jsTrim value.data).map Char.toLower⟩

/-- The dedup key built in `removeDuplicates`:
`normalizeText(job.title) + "|" + normalizeText(job.company_name)`. -/
def jobKey (job : Job) : String :=
  normalizeText job.title ++ "|" ++ normalizeText job.company_name

/-- The loop body of `removeDuplicates`, with the `seen` set of keys made
explicit as a list. -/
def dedupAux : List String → List Job → List Job
  | _, [] => []
  | seen, job :: rest =>
    if jobKey job ∈ seen then dedupAux seen rest
    else job :: dedupAux (jobKey job :: seen) rest

/-- `removeDuplicates(jobs)` from the source: keep the first job for each
`title|company` key, in input order. -/
def removeDuplicates (jobs : List Job) : List Job :=
  dedupAux [] jobs

/-! ## Freshness classifier (`isPostedToday`) -/

/-- A JS regex word character (`\w` = `[A-Za-z0-9_]`). -/
def jsWordChar (c : Char) : Bool :=
  c.isAlpha || c.isDigit || c == '_'

/-- Maximal runs of word characters; `acc` holds the (reversed) run in
progress. -/
def wordsOfAux : List Char → List Char → List (List Char)
  | [], acc => if acc.isEmpty then [] else [acc.reverse]
  | c :: cs, acc =>
    if jsWordChar c then wordsOfAux cs (c :: acc)
    else if acc.isEmpty then wordsOfAux cs [] else acc.reverse :: wordsOfAux cs []

/-- The maximal word-character runs of a string, in order.  A pattern
`\bw\b` (for `w` made of word characters) matches a string iff `w` is one
of these runs. -/
def wordsOf (l : List Char) : List (List Char) :=
  wordsOfAux l []

/-- Does `hay` start with `needle`? (`List.isPrefixOf`, inlined). -/
def leadsWith : List Char → List Char → Bool
  | [], _ => true
  | _ :: _, [] => false
  | a :: as, b :: bs => a == b && leadsWith as bs

/-- JS `hay.includes(needle)`. -/
def containsSeq (needle : List Char) : List Char → Bool
  | [] => needle.isEmpty
  | c :: rest => leadsWith needle (c :: rest) || containsSeq needle rest

/-- The word patterns of the `relativePatterns` array (each regex is
`\bw\b` for the word `w`). -/
def relWords : List (List Char) :=
  ["minute".toList, "minutes".toList, "min".toList, "mins".toList,
   "hour".toList, "hours".toList, "hr".toList, "hrs".toList, "today".toList]

/-- `sanitized = normalized.replace(/[.,]/g, " ")`, per character. -/
def sanitizeChar (c : Char) : Char :=
  if c == '.' || c == ',' then ' ' else c

/-- The local calendar date triple compared by the source:
`getFullYear()`, `getMonth()` (0-based), `getDate()`. -/
structure LocalDate where
  year : Nat
  month : Nat
  day : Nat
deriving DecidableEq

/-- Numeric value of a digit character. -/
def dVal (c : Char) : Nat := c.toNat - 48

/-- Models `new Date(postedAt)` followed by extraction of the local
year/month/day, restricted to local ISO date-time strings
`YYYY-MM-DDTHH:MM:SS` (which JS engines parse in the process-local
timezone, so the local components are the literal digits).  Every other
string — including the free-text forms "2 weeks ago" and "yesterday",
which V8 rejects — is treated as unparseable (`NaN` date). -/
def parseLocalDate : List Char → Option LocalDate
  | [y1, y2, y3, y4, '-', m1, m2, '-', d1, d2, 'T', h1, h2, ':', n1, n2, ':', s1, s2] =>
    if [y1, y2, y3, y4, m1, m2, d1, d2, h1, h2, n1, n2, s1, s2].all Char.isDigit then
      let y := 1000 * dVal y1 + 100 * dVal y2 + 10 * dVal y3 + dVal y4
      let mo := 10 * dVal m1 + dVal m2
      let da := 10 * dVal d1 + dVal d2
      let hh := 10 * dVal h1 + dVal h2
      let mi := 10 * dVal n1 + dVal n2
      let ss := 10 * dVal s1 + dVal s2
      if 1 ≤ mo && mo ≤ 12 && 1 ≤ da && da ≤ 31 && hh ≤ 23 && mi ≤ 59 && ss ≤ 59 then
        some ⟨y, mo - 1, da⟩
      else none
    else none
  | _ => none

/-- Body of `isPostedToday` on a non-empty raw string, with today's local
date passed in as `now`. -/
def isPostedTodayList (now : LocalDate) (raw : List Char) : Bool :=
  let normalized := jsTrim (raw.map Char.toLower)
  let sanitized := normalized.map sanitizeChar
  if containsSeq "just posted".toList normalized || containsSeq "just now".toList normalized then
    true
  else if (wordsOf sanitized).any (fun w => relWords.contains w) then
    true
  else
    match parseLocalDate raw with
    | some d => decide (d = now)
    | none => false

/-- `isPostedToday(postedAt)` from the source.  `none` models an absent
`posted_at`; the empty string is falsy in JS, so both yield `false`. -/
def isPostedToday (now : LocalDate) (postedAt : Option String) : Bool :=
  match postedAt with
  | none => false
  | some s => if s.data.isEmpty then false else isPostedTodayList now s.data

/-- The decimal digit characters (clamped at `'9'`). -/
def digitChar (k : Nat) : Char :=
  match k with
  | 0 => '0' | 1 => '1' | 2 => '2' | 3 => '3' | 4 => '4'
  | 5 => '5' | 6 => '6' | 7 => '7' | 8 => '8' | _ => '9'

/-- Two-digit decimal rendering (for months, days and time fields). -/
def twoDigits (n : Nat) : List Char :=
  [digitChar (n / 10), digitChar (n % 10)]

/-- The characters of the local ISO date-time string
`YYYY-MM-DDTHH:MM:SS` for the given components. -/
def isoChars (y mo da hh mi ss : Nat) : List Char :=
  [digitChar (y / 1000), digitChar (y / 100 % 10), digitChar (y / 10 % 10), digitChar (y % 10),
    '-'] ++ twoDigits mo ++ '-' :: (twoDigits da ++
      'T' :: (twoDigits hh ++ ':' :: (twoDigits mi ++ ':' :: twoDigits ss)))

/-- The characters a strict local ISO date-time string may contain. -/
def isoAllowedChar (c : Char) : Bool :=
  c == '0' || c == '1' || c == '2' || c == '3' || c == '4' || c == '5' ||
  c == '6' || c == '7' || c == '8' || c == '9' || c == '-' || c == ':' || c == 'T'

/-- The image of the ISO characters under `toLowerCase`. -/
def isoLoweredChar (c : Char) : Bool :=
  c == '0' || c == '1' || c == '2' || c == '3' || c == '4' || c == '5' ||
  c == '6' || c == '7' || c == '8' || c == '9' || c == '-' || c == ':' || c == 't'

/-! ## Report formatting -/

/-- JS `value || fallback` on an optional string (absent and `""` are
falsy). -/
def jsOrDefault (value : Option String) (fallback : String) : String :=
  match value with
  | some s => if s = "" then fallback else s
  | none => fallback

/-- One job block inside `formatRoleSection` (the element array joined by
`"\n"`; a missing `posted_at` prints as JS `undefined`). -/
def jobBlock (job : Job) : String :=
  "Title: " ++ job.title ++ "\n" ++
  ("Company: " ++ job.company_name ++ "\n" ++
   ("Location: " ++ job.location ++ "\n" ++
    ("Posted: " ++ (match job.posted_at with | some p => p | none => "undefined") ++ "\n" ++
     ("Apply: " ++ jsOrDefault job.apply_link "Apply link unavailable" ++ "\n"))))

/-- `formatRoleSection(roleQuery, jobs)` from the source. -/
def formatRoleSection (roleQuery : String) (jobs : List Job) : String :=
  if jobs.isEmpty then
    "Role: " ++ roleQuery ++ "\n" ++ "No new postings published today."
  else
    "Role: " ++ roleQuery ++ "\n" ++
      String.mk (jsTrim (String.intercalate "\n" (jobs.map jobBlock)).data)

/-- `formatQuotaSection(roleQuery, isTriggeredRole, details)` from the
source. -/
def formatQuotaSection (roleQuery : String) (isTriggeredRole : Bool) (details : Option String) : String :=
  if isTriggeredRole then
    "Role: " ++ roleQuery ++ "\n" ++
      (jsOrDefault details "SerpAPI free tier limit reached while running this search." ++ "\n" ++
       "Remaining roles were skipped to avoid extra API calls.")
  else
    "Role: " ++ roleQuery ++ "\n" ++
      "Skipped because the SerpAPI free tier limit was reached earlier today."

/-! ## Per-role search (`fetchRoleResults`) -/

/-- `isQuotaErrorMessage(message)` from the source (`!message` catches the
empty string). -/
def isQuotaErrorMessage (message : String) : Bool :=
  if message = "" then false
  else
    containsSeq "quota".toList (message.data.map Char.toLower) ||
    containsSeq "limit".toList (message.data.map Char.toLower) ||
    containsSeq "exceeded".toList (message.data.map Char.toLower)

/-- The JSON body of a per-role search response: optional `error` /
`error_code` strings and the `jobs_results` array.  `jobs_results = none`
models the field being absent or not an array
(`!Array.isArray(json.jobs_results)`). -/
structure SearchJson where
  error : Option String
  error_code : Option String
  jobs_results : Option (List Job)
deriving DecidableEq

/-- What one `fetch` of the search endpoint observably did: the transport
threw, or a response arrived with an HTTP status, status text, raw body
text, and parsed JSON body. -/
inductive SearchOutcome
  | transportError (message : String)
  | response (status : Nat) (statusText : String) (bodyText : String) (json : SearchJson)
deriving DecidableEq

/-- `response.ok` of the Fetch API: status in the 200–299 range. -/
def respOk (status : Nat) : Bool :=
  decide (200 ≤ status) && decide (status < 300)

/-- The two ways `fetchRoleResults` can throw: a quota-exceeded error
(created with `createQuotaExceededError`, i.e. carrying
`code = SERP_QUOTA_EXCEEDED`) or any other error. -/
inductive RoleErr
  | quotaExceeded (message : String)
  | fatal (message : String)
deriving DecidableEq

/-- The message of the quota-exceeded error thrown on an HTTP 429. -/
def roleQuotaMsg (roleQuery : String) : String :=
  "SerpAPI free tier limit reached while fetching \"" ++ roleQuery ++ "\"."

/-- The `errorDetails` string built from a provider error payload
(`json.error_code` is appended in parentheses when truthy). -/
def providerErrMsg (roleQuery e : String) (code : Option String) : String :=
  "SerpAPI error for \"" ++ roleQuery ++ "\": " ++ e ++
    (match code with
     | some c => if c = "" then "" else " (" ++ c ++ ")"
     | none => "")

/-- `fetchRoleResults(roleQuery, ...)` from the source.  The returned pair
is (failure-notification emails sent via `notifySerpFailure`, result):
`Except.ok` the classified-and-deduplicated postings, or `Except.error`
the thrown error. -/
def fetchRoleResults (now : LocalDate) (roleQuery : String) (outcome : SearchOutcome) :
    List String × Except RoleErr (List Job) :=
  match outcome with
  | .transportError msg =>
    (["SerpAPI request error for \"" ++ roleQuery ++ "\": " ++ msg],
     .error (.fatal msg))
  | .response status statusText bodyText json =>
    if status = 429 then
      ([], .error (.quotaExceeded (roleQuotaMsg roleQuery)))
    else if !respOk status then
      (["SerpAPI responded with status " ++ toString status ++ " for \"" ++ roleQuery ++
          "\": " ++ statusText ++ "\n" ++ bodyText],
       .error (.fatal ("SerpAPI request failed with status " ++ toString status)))
    else
      match json.error with
      | some e =>
        if e = "" then
          ([], .ok (removeDuplicates
            ((json.jobs_results.getD []).filter (fun j => isPostedToday now j.posted_at))))
        else
          if isQuotaErrorMessage e then
            ([], .error (.quotaExceeded (providerErrMsg roleQuery e json.error_code)))
          else
            ([providerErrMsg roleQuery e json.error_code],
             .error (.fatal (providerErrMsg roleQuery e json.error_code)))
      | none =>
        ([], .ok (removeDuplicates
          ((json.jobs_results.getD []).filter (fun j => isPostedToday now j.posted_at))))

/-! ## Quota lookup (`fetchRemainingSearches`) -/

/-- The result of JS `Number()` applied to a present (non-nullish)
account field: a finite number, or a NaN-like value (NaN or ±Infinity,
e.g. from a non-numeric string). -/
inductive JsNum
  | finite (n : Int)
  | nanLike
deriving DecidableEq

/-- The JSON body of the account endpoint.  `none` models a field that is
absent or null (skipped by the `??` chain). -/
structure AccountJson where
  total_searches_left : Option JsNum
  plan_searches_left : Option JsNum
  searches_left : Option JsNum
deriving DecidableEq

/-- What one `fetch` of the account endpoint observably did. -/
inductive AccountOutcome
  | transportError (message : String)
  | response (status : Nat) (statusText : String) (bodyText : String) (json : AccountJson)
deriving DecidableEq

/-- `fetchRemainingSearches(...)` from the source: (notifications sent,
remaining-credit count or thrown error message). -/
def fetchRemainingSearches (acct : AccountOutcome) : List String × Except String Int :=
  match acct with
  | .transportError msg =>
    (["SerpAPI account lookup error: " ++ msg], .error msg)
  | .response status statusText bodyText json =>
    if !respOk status then
      (["SerpAPI account endpoint responded with status " ++ toString status ++ ": " ++
          statusText ++ "\n" ++ bodyText],
       .error ("SerpAPI account lookup failed with status " ++ toString status))
    else
      match json.total_searches_left <|> json.plan_searches_left <|> json.searches_left with
      | some (.finite n) => ([], .ok n)
      | some .nanLike =>
        (["Unable to determine remaining SerpAPI searches from account response."],
         .error "Unable to determine remaining SerpAPI searches from account response.")
      | none =>
        (["Unable to determine remaining SerpAPI searches from account response."],
         .error "Unable to determine remaining SerpAPI searches from account response.")

/-! ## The orchestration loop (`fetchJobs`) -/

/-- Observable outcome of the role loop when it completes: the report
sections in role order, the failure notifications sent, the loop indices
at which the search endpoint was called, the sticky `hasAnyPosting` and
`quotaTriggered` flags, and the final `remainingSearches` /
`quotaMessageSent` state. -/
structure LoopOut where
  sections : List String
  notifs : List String
  calls : List Nat
  hasAnyPosting : Bool
  quotaTriggered : Bool
  finalRemaining : Int
  finalQms : Bool
deriving DecidableEq

/-- Observable outcome of the role loop when it aborts: the propagated
error message, the sections built before the failing role, the failure
notifications, and the search-call indices. -/
structure AbortOut where
  message : String
  sections : List String
  notifs : List String
  calls : List Nat
deriving DecidableEq

/-- Prepend one processed role (its section, notifications, search calls
and flag contributions) onto the outcome of the remaining roles. -/
def consOk (sec : String) (notifs : List String) (calls : List Nat)
    (hasP qt : Bool) : Except AbortOut LoopOut → Except AbortOut LoopOut
  | .ok out => .ok ⟨sec :: out.sections, notifs ++ out.notifs, calls ++ out.calls,
      hasP || out.hasAnyPosting, qt || out.quotaTriggered, out.finalRemaining, out.finalQms⟩
  | .error ab => .error ⟨ab.message, sec :: ab.sections, notifs ++ ab.notifs, calls ++ ab.calls⟩

/-- The explanatory message attached to the first naturally-skipped role
(the `details` computed at the top of the loop body). -/
def skipDetails (total : Int) (isFirst : Bool) : Option String :=
  if isFirst then
    some (if total = 0 then "SerpAPI search credits are exhausted for today."
      else "SerpAPI only had " ++ toString total ++ " search" ++
        (if total = 1 then "" else "es") ++
        " available and they were used by earlier roles in this run.")
  else none

/-- The `for` loop of `fetchJobs`, as structural recursion over the
remaining roles.  Arguments after the role list: the loop index, the
current `remainingSearches`, and the current `quotaMessageSent` flag;
`total` is the initial `totalSearchesLeft` (used only in `skipDetails`). -/
def runRoles (now : LocalDate) (search : Nat → SearchOutcome) (total : Int) :
    List String → Nat → Int → Bool → Except AbortOut LoopOut
  | [], _, remaining, qms => .ok ⟨[], [], [], false, false, remaining, qms⟩
  | role :: rest, idx, remaining, qms =>
    if remaining ≤ 0 then
      consOk (formatQuotaSection role (!qms) (skipDetails total (!qms))) [] [] false true
        (runRoles now search total rest (idx + 1) remaining true)
    else
      match fetchRoleResults now role (search idx) with
      | (notifs, .ok jobs) =>
        consOk (formatRoleSection role jobs) notifs [idx] (!jobs.isEmpty) false
          (runRoles now search total rest (idx + 1) (remaining - 1) qms)
      | (notifs, .error (.quotaExceeded msg)) =>
        consOk (formatQuotaSection role true (some msg)) notifs [idx] false true
          (runRoles now search total rest (idx + 1) 0 true)
      | (notifs, .error (.fatal msg)) => .error ⟨msg, [], notifs, [idx]⟩

/-- Observable outcome of an entire `fetchJobs()` run. -/
inductive RunOutcome
  /-- `ROLE_QUERY` yielded no role queries: thrown before any network call. -/
  | configError (message : String)
  /-- `fetchRemainingSearches` threw: the error propagates. -/
  | lookupFailed (message : String) (notifs : List String)
  /-- A per-role error propagated out of the loop: no report email. -/
  | aborted (ab : AbortOut)
  /-- The loop completed; `email` is the body of the report email, or
  `none` on the silent no-postings path. -/
  | completed (out : LoopOut) (email : Option String)
deriving DecidableEq

/-- `fetchJobs()` from the source, with the environment's role-query list
already parsed, the account response, and the per-call search responses
passed in as data. -/
def fetchJobs (now : LocalDate) (roles : List String) (acct : AccountOutcome)
    (search : Nat → SearchOutcome) : RunOutcome :=
  if roles.isEmpty then
    .configError "ROLE_QUERY must include at least one non-empty role query"
  else
    match fetchRemainingSearches acct with
    | (notifs, .error e) => .lookupFailed e notifs
    | (notifs0, .ok total) =>
      match runRoles now search total roles 0 total false with
      | .error ab => .aborted ⟨ab.message, ab.sections, notifs0 ++ ab.notifs, ab.calls⟩
      | .ok out =>
        if !out.quotaTriggered && !out.hasAnyPosting then .completed out none
        else .completed out (some (String.intercalate "\n\n" out.sections))

/-- The report-email body of a run outcome, if one was sent. -/
def emailOf : RunOutcome → Option String
  | .completed _ email => email
  | _ => none

/-- The report sections of a completed run. -/
def sectionsOf : RunOutcome → Option (List String)
  | .completed out _ => some out.sections
  | _ => none

/-- The classify-then-dedup pipeline a successful per-role search applies
to its `jobs_results` (absent/non-array modelled as `none`). -/
def classifyDedup (now : LocalDate) (jobsResults : Option (List Job)) : List Job :=
  removeDuplicates ((jobsResults.getD []).filter (fun j => isPostedToday now j.posted_at))

/-- Does a search outcome hit the source's quota-exceeded detection:
HTTP 429, or an HTTP-successful response whose truthy `error` message
contains "quota", "limit" or "exceeded" (case-insensitive)? -/
def isQuotaOutcome : SearchOutcome → Bool
  | .transportError _ => false
  | .response status _ _ json =>
    status == 429 ||
      (respOk status && (match json.error with
        | some e => !(e == "") && isQuotaErrorMessage e
        | none => false))

/-- Does a search outcome make `fetchRoleResults` throw a non-quota
(fatal) error: transport failure, a non-429 non-2xx status, or a truthy
non-quota provider `error`? -/
def isFatalOutcome : SearchOutcome → Bool
  | .transportError _ => true
  | .response status _ _ json =>
    !(status == 429) &&
      (!respOk status || (match json.error with
        | some e => !(e == "") && !isQuotaErrorMessage e
        | none => false))

/-- Sequential composition of loop outcomes: run `a`, then feed its final
`remainingSearches` / `quotaMessageSent` state into `f` and merge the
observations. -/
def combineRun (a : Except AbortOut LoopOut)
    (f : Int → Bool → Except AbortOut LoopOut) : Except AbortOut LoopOut :=
  match a with
  | .error ab => .error ab
  | .ok out =>
    match f out.finalRemaining out.finalQms with
    | .error ab => .error ⟨ab.message, out.sections ++ ab.sections,
        out.notifs ++ ab.notifs, out.calls ++ ab.calls⟩
    | .ok out2 => .ok ⟨out.sections ++ out2.sections, out.notifs ++ out2.notifs,
        out.calls ++ out2.calls, out.hasAnyPosting || out2.hasAnyPosting,
        out.quotaTriggered || out2.quotaTriggered, out2.finalRemaining, out2.finalQms⟩

/-! ## Deduplicator properties -/

theorem dedupAux_idem (seen : List String) (l : List Job) :
    dedupAux seen (dedupAux seen l) = dedupAux seen l := by
  induction l generalizing seen with
  | nil => rfl
  | cons j rest ih =>
    by_cases h : jobKey j ∈ seen
    · rw [dedupAux, if_pos h]
      exact ih seen
    · rw [dedupAux, if_neg h, dedupAux, if_neg h]
      exact congrArg (j :: ·) (ih (jobKey j :: seen))

theorem dedupAux_sublist (seen : List String) (l : List Job) :
    List.Sublist (dedupAux seen l) l := by
  induction l generalizing seen with
  | nil => exact List.Sublist.refl []
  | cons j rest ih =>
    by_cases h : jobKey j ∈ seen
    · rw [dedupAux, if_pos h]
      exact List.Sublist.cons j (ih seen)
    · rw [dedupAux, if_neg h]
      exact List.Sublist.cons₂ j (ih (jobKey j :: seen))

theorem dedupAux_filter (seen : List String) (l : List Job) (k : String) :
    (dedupAux seen l).filter (fun j => jobKey j == k) =
      if k ∈ seen then [] else (l.filter (fun j => jobKey j == k)).take 1 := by
  induction l generalizing seen with
  | nil => simp [dedupAux]
  | cons j rest ih =>
    by_cases hj : jobKey j ∈ seen
    · rw [dedupAux, if_pos hj, ih seen]
      by_cases hk : k ∈ seen
      · simp [hk]
      · have hne : ¬ jobKey j = k := fun he => hk (he ▸ hj)
        have hbeq : (jobKey j == k) = false := beq_eq_false_iff_ne.mpr hne
        simp [hk, List.filter_cons, hbeq]
    · rw [dedupAux, if_neg hj]
      by_cases hk : jobKey j = k
      · subst hk
        rw [List.filter_cons, List.filter_cons]
        simp only [beq_self_eq_true, if_true]
        rw [ih (jobKey j :: seen)]
        simp [hj, List.mem_cons]
      · have hbeq : (jobKey j == k) = false := beq_eq_false_iff_ne.mpr hk
        rw [List.filter_cons, List.filter_cons]
        simp only [hbeq, Bool.false_eq_true, if_false]
        rw [ih (jobKey j :: seen)]
        have h1 : (k ∈ jobKey j :: seen) ↔ (k ∈ seen) := by
          constructor
          · intro hx
            rcases List.mem_cons.mp hx with he | hs
            · exact absurd he.symm hk
            · exact hs
          · exact fun hs => List.mem_cons_of_mem _ hs
        by_cases hks : k ∈ seen
        · rw [if_pos (h1.mpr hks), if_pos hks]
        · rw [if_neg (fun hx => hks (h1.mp hx)), if_neg hks]

/-- C7 — `dedupe` is idempotent, its output is an order-preserving
subsequence of the input that keeps, for every key, exactly the first
posting carrying that key, and two postings whose titles and company
names agree after trimming and lowercasing (i.e. differ only by letter
case or leading/trailing whitespace) collapse to the first one. -/
theorem C7_dedupe_idempotent_stable (x : List Job) (j1 j2 : Job) :
    removeDuplicates (removeDuplicates x) = removeDuplicates x ∧
    List.Sublist (removeDuplicates x) x ∧
    (∀ k : String, (removeDuplicates x).filter (fun j => jobKey j == k) =
      (x.filter (fun j => jobKey j == k)).take 1) ∧
    (normalizeText j1.title = normalizeText j2.title →
      normalizeText j1.company_name = normalizeText j2.company_name →
      removeDuplicates [j1, j2] = [j1]) := by
  refine ⟨dedupAux_idem [] x, dedupAux_sublist [] x, ?_, ?_⟩
  · intro k
    have h := dedupAux_filter [] x k
    simpa using h
  · intro ht hc
    have hkey : jobKey j2 = jobKey j1 := by
      unfold jobKey
      rw [ht, hc]
    simp [removeDuplicates, dedupAux, List.mem_cons, hkey]

theorem C7_witness :
    removeDuplicates (removeDuplicates [(⟨" Staff Eng", "ACME ", "NYC", none, none⟩ : Job),
        ⟨"staff eng", "acme", "Boston", some "today", some "u"⟩]) =
      removeDuplicates [(⟨" Staff Eng", "ACME ", "NYC", none, none⟩ : Job),
        ⟨"staff eng", "acme", "Boston", some "today", some "u"⟩] ∧
    removeDuplicates [(⟨" Staff Eng", "ACME ", "NYC", none, none⟩ : Job),
        ⟨"staff eng", "acme", "Boston", some "today", some "u"⟩] = [⟨" Staff Eng", "ACME ", "NYC", none, none⟩] := by
  have h := C7_dedupe_idempotent_stable
    [(⟨" Staff Eng", "ACME ", "NYC", none, none⟩ : Job),
      ⟨"staff eng", "acme", "Boston", some "today", some "u"⟩]
    ⟨" Staff Eng", "ACME ", "NYC", none, none⟩
    ⟨"staff eng", "acme", "Boston", some "today", some "u"⟩
  exact ⟨h.1, h.2.2.2 (by decide) (by decide)⟩

theorem append_pipe_inj : ∀ (a c b d : List Char), '|' ∉ a → '|' ∉ c →
    a ++ '|' :: b = c ++ '|' :: d → a = c ∧ b = d := by
  intro a
  induction a with
  | nil =>
    intro c b d _ hc h
    cases c with
    | nil => simpa using h
    | cons c0 cs =>
      simp only [List.nil_append, List.cons_append, List.cons.injEq] at h
      exact absurd (h.1 ▸ List.mem_cons_self c0 cs) (fun hm => hc (h.1 ▸ hm))
  | cons a0 as ih =>
    intro c b d ha hc h
    cases c with
    | nil =>
      simp only [List.cons_append, List.nil_append, List.cons.injEq] at h
      exact absurd (h.1 ▸ List.mem_cons_self a0 as) (fun hm => ha (h.1 ▸ hm))
    | cons c0 cs =>
      simp only [List.cons_append, List.cons.injEq] at h
      have ha' : '|' ∉ as := fun hm => ha (List.mem_cons_of_mem a0 hm)
      have hc' : '|' ∉ cs := fun hm => hc (List.mem_cons_of_mem c0 hm)
      obtain ⟨h1, h2⟩ := ih cs b d ha' hc' h.2
      exact ⟨by rw [h.1, h1], h2⟩

/-- C8 (counterexample to the claim as stated) — the pipe separator *can*
appear in normalized text, so the `title|company` key is not injective on
the (normalized title, normalized company) pair: the postings
`("a|b", "c")` and `("a", "b|c")` are collapsed as duplicates although
their normalized titles differ. -/
theorem C8_counterexample :
    removeDuplicates [(⟨"a|b", "c", "", none, none⟩ : Job), ⟨"a", "b|c", "", none, none⟩] =
      [(⟨"a|b", "c", "", none, none⟩ : Job)] ∧
    normalizeText (Job.mk "a|b" "c" "" none none).title ≠
      normalizeText (Job.mk "a" "b|c" "" none none).title := by
  constructor
  · decide
  · decide

/-- C8 (amended) — `dedupe` treats two postings as duplicates exactly when
their `title|company` keys coincide, independently of location, posted-at
and apply URL; and *whenever neither normalized title contains the pipe
separator*, equal keys are equivalent to componentwise equality of the
normalized titles and normalized company names.  (The claim's premise that
the separator never occurs in normalized text does not hold: titles may
contain `|`, see the counterexample.) -/
theorem C8_key_equality (j1 j2 : Job) :
    (removeDuplicates [j1, j2] = [j1] ↔ jobKey j1 = jobKey j2) ∧
    ('|' ∉ (normalizeText j1.title).data → '|' ∉ (normalizeText j2.title).data →
      (jobKey j1 = jobKey j2 ↔
        (normalizeText j1.title = normalizeText j2.title ∧
         normalizeText j1.company_name = normalizeText j2.company_name))) ∧
    (∀ l p a l' p' a', jobKey ⟨j1.title, j1.company_name, l, p, a⟩ =
      jobKey ⟨j1.title, j1.company_name, l', p', a'⟩) := by
  refine ⟨?_, ?_, fun _ _ _ _ _ _ => rfl⟩
  · constructor
    · intro h
      by_cases hk : jobKey j2 = jobKey j1
      · exact hk.symm
      · exfalso
        have : removeDuplicates [j1, j2] = [j1, j2] := by
          simp [removeDuplicates, dedupAux, List.mem_cons, hk]
        rw [this] at h
        exact absurd (congrArg List.length h) (by simp)
    · intro h
      simp [removeDuplicates, dedupAux, List.mem_cons, h.symm]
  · intro h1 h2
    constructor
    · intro h
      have hdata : (normalizeText j1.title).data ++ '|' :: (normalizeText j1.company_name).data =
          (normalizeText j2.title).data ++ '|' :: (normalizeText j2.company_name).data := by
        have := congrArg String.data h
        simpa [jobKey, String.data_append, List.append_assoc] using this
      obtain ⟨ht, hc⟩ := append_pipe_inj _ _ _ _ h1 h2 hdata
      refine ⟨?_, ?_⟩
      · cases hn1 : normalizeText j1.title
        cases hn2 : normalizeText j2.title
        simp_all
      · cases hn1 : normalizeText j1.company_name
        cases hn2 : normalizeText j2.company_name
        simp_all
    · intro ⟨ht, hc⟩
      unfold jobKey
      rw [ht, hc]

theorem C8_key_equality_witness :
    (removeDuplicates [(⟨"Dev", "Acme", "NYC", none, none⟩ : Job),
        ⟨"dev ", "ACME", "LA", some "today", some "u"⟩] =
      [(⟨"Dev", "Acme", "NYC", none, none⟩ : Job)] ↔
      jobKey (Job.mk "Dev" "Acme" "NYC" none none) =
        jobKey (Job.mk "dev " "ACME" "LA" (some "today") (some "u"))) ∧
    (jobKey (Job.mk "Dev" "Acme" "NYC" none none) =
        jobKey (Job.mk "dev " "ACME" "LA" (some "today") (some "u")) ↔
      (normalizeText (Job.mk "Dev" "Acme" "NYC" none none).title =
          normalizeText (Job.mk "dev " "ACME" "LA" (some "today") (some "u")).title ∧
        normalizeText (Job.mk "Dev" "Acme" "NYC" none none).company_name =
          normalizeText (Job.mk "dev " "ACME" "LA" (some "today") (some "u")).company_name)) := by
  have h := C8_key_equality (Job.mk "Dev" "Acme" "NYC" none none)
    (Job.mk "dev " "ACME" "LA" (some "today") (some "u"))
  exact ⟨h.1, h.2.1 (by decide) (by decide)⟩

/-! ## Orchestration-loop invariants -/

theorem formatRoleSection_shape (role : String) (jobs : List Job) :
    ∃ t, formatRoleSection role jobs = "Role: " ++ role ++ "\n" ++ t := by
  unfold formatRoleSection
  by_cases h : jobs.isEmpty
  · rw [if_pos h]
    exact ⟨_, rfl⟩
  · rw [if_neg h]
    exact ⟨_, rfl⟩

theorem formatQuotaSection_shape (role : String) (b : Bool) (details : Option String) :
    ∃ t, formatQuotaSection role b details = "Role: " ++ role ++ "\n" ++ t := by
  unfold formatQuotaSection
  cases b
  · rw [if_neg (by simp)]
    exact ⟨_, rfl⟩
  · rw [if_pos rfl]
    exact ⟨_, rfl⟩

/-! ### Unfolding lemmas for the loop and the driver -/

theorem runRoles_nil (now : LocalDate) (search : Nat → SearchOutcome) (total : Int)
    (idx : Nat) (remaining : Int) (qms : Bool) :
    runRoles now search total [] idx remaining qms =
      .ok ⟨[], [], [], false, false, remaining, qms⟩ := rfl

theorem runRoles_skip (now : LocalDate) (search : Nat → SearchOutcome) (total : Int)
    (role : String) (rest : List String) (idx : Nat) (remaining : Int) (qms : Bool)
    (h : remaining ≤ 0) :
    runRoles now search total (role :: rest) idx remaining qms =
      consOk (formatQuotaSection role (!qms) (skipDetails total (!qms))) [] [] false true
        (runRoles now search total rest (idx + 1) remaining true) := by
  rw [runRoles, if_pos h]

theorem runRoles_success (now : LocalDate) (search : Nat → SearchOutcome) (total : Int)
    (role : String) (rest : List String) (idx : Nat) (remaining : Int) (qms : Bool)
    (notifs : List String) (jobs : List Job)
    (h : ¬ remaining ≤ 0)
    (hfetch : fetchRoleResults now role (search idx) = (notifs, .ok jobs)) :
    runRoles now search total (role :: rest) idx remaining qms =
      consOk (formatRoleSection role jobs) notifs [idx] (!jobs.isEmpty) false
        (runRoles now search total rest (idx + 1) (remaining - 1) qms) := by
  rw [runRoles, if_neg h, hfetch]

theorem runRoles_quota (now : LocalDate) (search : Nat → SearchOutcome) (total : Int)
    (role : String) (rest : List String) (idx : Nat) (remaining : Int) (qms : Bool)
    (notifs : List String) (msg : String)
    (h : ¬ remaining ≤ 0)
    (hfetch : fetchRoleResults now role (search idx) = (notifs, .error (.quotaExceeded msg))) :
    runRoles now search total (role :: rest) idx remaining qms =
      consOk (formatQuotaSection role true (some msg)) notifs [idx] false true
        (runRoles now search total rest (idx + 1) 0 true) := by
  rw [runRoles, if_neg h, hfetch]

theorem runRoles_fatal (now : LocalDate) (search : Nat → SearchOutcome) (total : Int)
    (role : String) (rest : List String) (idx : Nat) (remaining : Int) (qms : Bool)
    (notifs : List String) (msg : String)
    (h : ¬ remaining ≤ 0)
    (hfetch : fetchRoleResults now role (search idx) = (notifs, .error (.fatal msg))) :
    runRoles now search total (role :: rest) idx remaining qms =
      .error ⟨msg, [], notifs, [idx]⟩ := by
  rw [runRoles, if_neg h, hfetch]

theorem fetchJobs_after_lookup (now : LocalDate) (roles : List String)
    (acct : AccountOutcome) (search : Nat → SearchOutcome)
    (notifs0 : List String) (total : Int)
    (hne : roles.isEmpty = false)
    (hacct : fetchRemainingSearches acct = (notifs0, .ok total)) :
    fetchJobs now roles acct search =
      match runRoles now search total roles 0 total false with
      | .error ab => .aborted ⟨ab.message, ab.sections, notifs0 ++ ab.notifs, ab.calls⟩
      | .ok out =>
        if !out.quotaTriggered && !out.hasAnyPosting then .completed out none
        else .completed out (some (String.intercalate "\n\n" out.sections)) := by
  unfold fetchJobs
  rw [if_neg (by simp [hne]), hacct]

theorem fetchJobs_lookup_failed (now : LocalDate) (roles : List String)
    (acct : AccountOutcome) (search : Nat → SearchOutcome)
    (notifs0 : List String) (e : String)
    (hne : roles.isEmpty = false)
    (hacct : fetchRemainingSearches acct = (notifs0, .error e)) :
    fetchJobs now roles acct search = .lookupFailed e notifs0 := by
  unfold fetchJobs
  rw [if_neg (by simp [hne]), hacct]

theorem fetchJobs_completed (now : LocalDate) (roles : List String)
    (acct : AccountOutcome) (search : Nat → SearchOutcome)
    (notifs0 : List String) (total : Int) (out : LoopOut)
    (hne : roles.isEmpty = false)
    (hacct : fetchRemainingSearches acct = (notifs0, .ok total))
    (hrun : runRoles now search total roles 0 total false = .ok out) :
    fetchJobs now roles acct search =
      (if !out.quotaTriggered && !out.hasAnyPosting then .completed out none
       else .completed out (some (String.intercalate "\n\n" out.sections))) := by
  rw [fetchJobs_after_lookup now roles acct search notifs0 total hne hacct, hrun]

theorem fetchJobs_aborted_eq (now : LocalDate) (roles : List String)
    (acct : AccountOutcome) (search : Nat → SearchOutcome)
    (notifs0 : List String) (total : Int) (ab : AbortOut)
    (hne : roles.isEmpty = false)
    (hacct : fetchRemainingSearches acct = (notifs0, .ok total))
    (hrun : runRoles now search total roles 0 total false = .error ab) :
    fetchJobs now roles acct search =
      .aborted ⟨ab.message, ab.sections, notifs0 ++ ab.notifs, ab.calls⟩ := by
  rw [fetchJobs_after_lookup now roles acct search notifs0 total hne hacct, hrun]

/-- Loop invariant behind C1: a completed loop produces exactly one
section per remaining role, and the `i`-th section opens with the `i`-th
role's name. -/
theorem runRoles_ok_shape (now : LocalDate) (search : Nat → SearchOutcome) (total : Int) :
    ∀ (roles : List String) (idx : Nat) (remaining : Int) (qms : Bool) (out : LoopOut),
      runRoles now search total roles idx remaining qms = .ok out →
      out.sections.length = roles.length ∧
      ∀ i r, roles.get? i = some r →
        ∃ t, out.sections.get? i = some ("Role: " ++ r ++ "\n" ++ t) := by
  intro roles
  induction roles with
  | nil =>
    intro idx remaining qms out h
    rw [runRoles_nil] at h
    simp only [Except.ok.injEq] at h
    subst h
    exact ⟨rfl, by intro i r hir; simp at hir⟩
  | cons role rest ih =>
    intro idx remaining qms out h
    have sectionCase : ∀ (sec : String) (rem' : Int) (qms' : Bool) (out' : LoopOut),
        (∃ t, sec = "Role: " ++ role ++ "\n" ++ t) →
        runRoles now search total rest (idx + 1) rem' qms' = .ok out' →
        out.sections = sec :: out'.sections →
        out.sections.length = (role :: rest).length ∧
        ∀ i r, (role :: rest).get? i = some r →
          ∃ t, out.sections.get? i = some ("Role: " ++ r ++ "\n" ++ t) := by
      intro sec rem' qms' out' hsec hrec hout
      obtain ⟨hlen, hidx⟩ := ih (idx + 1) rem' qms' out' hrec
      rw [hout]
      constructor
      · simpa using hlen
      · intro i r hir
        cases i with
        | zero =>
          simp only [List.get?_cons_zero, Option.some.injEq] at hir ⊢
          exact hir ▸ hsec
        | succ n =>
          simp only [List.get?_cons_succ] at hir ⊢
          exact hidx n r hir
    by_cases hrem : remaining ≤ 0
    · rw [runRoles_skip now search total role rest idx remaining qms hrem] at h
      cases hrec : runRoles now search total rest (idx + 1) remaining true with
      | error ab => rw [hrec] at h; simp [consOk] at h
      | ok out' =>
        rw [hrec] at h
        simp only [consOk, Except.ok.injEq] at h
        exact sectionCase _ _ _ out' (formatQuotaSection_shape role _ _) hrec (by rw [← h])
    · rcases hfetch : fetchRoleResults now role (search idx) with ⟨notifs, res⟩
      cases res with
      | ok jobs =>
        rw [runRoles_success now search total role rest idx remaining qms notifs jobs hrem hfetch] at h
        cases hrec : runRoles now search total rest (idx + 1) (remaining - 1) qms with
        | error ab => rw [hrec] at h; simp [consOk] at h
        | ok out' =>
          rw [hrec] at h
          simp only [consOk, Except.ok.injEq] at h
          exact sectionCase _ _ _ out' (formatRoleSection_shape role jobs) hrec (by rw [← h])
      | error e =>
        cases e with
        | quotaExceeded msg =>
          rw [runRoles_quota now search total role rest idx remaining qms notifs msg hrem hfetch] at h
          cases hrec : runRoles now search total rest (idx + 1) 0 true with
          | error ab => rw [hrec] at h; simp [consOk] at h
          | ok out' =>
            rw [hrec] at h
            simp only [consOk, Except.ok.injEq] at h
            exact sectionCase _ _ _ out' (formatQuotaSection_shape role _ _) hrec (by rw [← h])
        | fatal msg =>
          rw [runRoles_fatal now search total role rest idx remaining qms notifs msg hrem hfetch] at h
          simp at h

/-- C1 — whenever the orchestration loop completes without a fatal error
(every role having succeeded, hit the quota, or been skipped), the run
produces exactly one report section per role query, in input order: the
`i`-th section opens with `"Role: " ++ roles[i] ++ "\n"`. -/
theorem C1_one_section_per_role (now : LocalDate) (roles : List String)
    (acct : AccountOutcome) (search : Nat → SearchOutcome) (out : LoopOut)
    (email : Option String)
    (h : fetchJobs now roles acct search = .completed out email) :
    out.sections.length = roles.length ∧
    ∀ i r, roles.get? i = some r →
      ∃ t, out.sections.get? i = some ("Role: " ++ r ++ "\n" ++ t) := by
  by_cases hne : roles.isEmpty
  · unfold fetchJobs at h
    rw [if_pos hne] at h
    exact absurd h (by simp)
  · have hne' : roles.isEmpty = false := Bool.not_eq_true _ ▸ hne
    rcases hacct : fetchRemainingSearches acct with ⟨notifs0, res⟩
    cases res with
    | error e =>
      have heq := (fetchJobs_lookup_failed now roles acct search notifs0 e hne' hacct).symm.trans h
      exact absurd heq (by simp)
    | ok total =>
      cases hrun : runRoles now search total roles 0 total false with
      | error ab =>
        have heq := (fetchJobs_aborted_eq now roles acct search notifs0 total ab hne' hacct hrun).symm.trans h
        exact absurd heq (by simp)
      | ok out' =>
        have heq := (fetchJobs_completed now roles acct search notifs0 total out' hne' hacct hrun).symm.trans h
        have hout : out' = out := by
          by_cases hq : (!out'.quotaTriggered && !out'.hasAnyPosting) = true
          · rw [if_pos hq] at heq
            exact ((RunOutcome.completed.injEq _ _ _ _).mp heq).1
          · rw [if_neg hq] at heq
            exact ((RunOutcome.completed.injEq _ _ _ _).mp heq).1
        exact hout ▸ runRoles_ok_shape now search total roles 0 total false out' hrun

theorem C1_witness :
    (LoopOut.mk ["Role: A\nNo new postings published today."] [] [0] false false 4 false).sections.length =
      (["A"] : List String).length ∧
    ∀ i r, (["A"] : List String).get? i = some r →
      ∃ t, (LoopOut.mk ["Role: A\nNo new postings published today."] [] [0] false false 4 false).sections.get? i =
        some ("Role: " ++ r ++ "\n" ++ t) :=
  C1_one_section_per_role ⟨2026, 9, 12⟩ ["A"]
    (.response 200 "OK" "" ⟨some (.finite 5), none, none⟩)
    (fun _ => .response 200 "OK" "" ⟨none, none, some []⟩)
    (LoopOut.mk ["Role: A\nNo new postings published today."] [] [0] false false 4 false)
    none (by decide)

/-- C5 — for a run whose loop completes: the report email is skipped
exactly when no quota event occurred on any role (neither the skip branch
nor the quota-exceeded branch ran, i.e. `quotaTriggered` stayed false) and
no role yielded a posting after classification and deduplication
(`hasAnyPosting` stayed false); otherwise exactly one email is sent and
its body is all sections, in role order, joined by blank lines. -/
theorem C5_silent_or_one_email (now : LocalDate) (roles : List String)
    (acct : AccountOutcome) (search : Nat → SearchOutcome) (out : LoopOut)
    (email : Option String)
    (h : fetchJobs now roles acct search = .completed out email) :
    (email = none ↔ (out.quotaTriggered = false ∧ out.hasAnyPosting = false)) ∧
    (∀ b, email = some b → b = String.intercalate "\n\n" out.sections) := by
  by_cases hne : roles.isEmpty
  · unfold fetchJobs at h
    rw [if_pos hne] at h
    exact absurd h (by simp)
  · have hne' : roles.isEmpty = false := Bool.not_eq_true _ ▸ hne
    rcases hacct : fetchRemainingSearches acct with ⟨notifs0, res⟩
    cases res with
    | error e =>
      have heq := (fetchJobs_lookup_failed now roles acct search notifs0 e hne' hacct).symm.trans h
      exact absurd heq (by simp)
    | ok total =>
      cases hrun : runRoles now search total roles 0 total false with
      | error ab =>
        have heq := (fetchJobs_aborted_eq now roles acct search notifs0 total ab hne' hacct hrun).symm.trans h
        exact absurd heq (by simp)
      | ok out' =>
        have heq := (fetchJobs_completed now roles acct search notifs0 total out' hne' hacct hrun).symm.trans h
        by_cases hq : (!out'.quotaTriggered && !out'.hasAnyPosting) = true
        · rw [if_pos hq] at heq
          obtain ⟨hout, hemail⟩ := (RunOutcome.completed.injEq _ _ _ _).mp heq
          subst hout
          rw [Bool.and_eq_true, Bool.not_eq_true', Bool.not_eq_true'] at hq
          exact ⟨by simp [← hemail, hq.1, hq.2], fun b hb => by rw [← hemail] at hb; cases hb⟩
        · rw [if_neg hq] at heq
          obtain ⟨hout, hemail⟩ := (RunOutcome.completed.injEq _ _ _ _).mp heq
          subst hout
          constructor
          · rw [← hemail]
            simp only [Option.some_ne_none, false_iff]
            intro ⟨h1, h2⟩
            exact hq (by rw [h1, h2]; rfl)
          · intro b hb
            rw [← hemail] at hb
            exact (Option.some.injEq _ _ ▸ hb).symm


theorem C5_witness :
    ((none : Option String) = none ↔
      ((LoopOut.mk ["Role: A\nNo new postings published today."] [] [0] false false 4 false).quotaTriggered = false ∧
       (LoopOut.mk ["Role: A\nNo new postings published today."] [] [0] false false 4 false).hasAnyPosting = false)) ∧
    (∀ b, (none : Option String) = some b →
      b = String.intercalate "\n\n"
        (LoopOut.mk ["Role: A\nNo new postings published today."] [] [0] false false 4 false).sections) :=
  C5_silent_or_one_email ⟨2026, 9, 12⟩ ["A"]
    (.response 200 "OK" "" ⟨some (.finite 5), none, none⟩)
    (fun _ => .response 200 "OK" "" ⟨none, none, some []⟩)
    (LoopOut.mk ["Role: A\nNo new postings published today."] [] [0] false false 4 false)
    none (by decide)

/-- C10 — an HTTP-successful per-role response with no `error` field whose
`jobs_results` is absent or not an array is treated exactly like a
successful search with zero postings: `fetchRoleResults` returns the
empty list (with no failure notification), the role's section is the
"No new postings published today." variant, and the loop still consumes
one unit of quota (it recurses with `remaining - 1`). -/
theorem C10_missing_jobs_results (now : LocalDate) (search : Nat → SearchOutcome)
    (total : Int) (role : String) (rest : List String) (idx : Nat)
    (remaining : Int) (qms : Bool) (status : Nat) (st bt : String)
    (ec : Option String) (out' : LoopOut)
    (hok : respOk status = true)
    (hsearch : search idx = .response status st bt ⟨none, ec, none⟩)
    (hrem : ¬ remaining ≤ 0)
    (hrec : runRoles now search total rest (idx + 1) (remaining - 1) qms = .ok out') :
    fetchRoleResults now role (search idx) = ([], .ok []) ∧
    formatRoleSection role [] = "Role: " ++ role ++ "\n" ++ "No new postings published today." ∧
    runRoles now search total (role :: rest) idx remaining qms =
      .ok ⟨formatRoleSection role [] :: out'.sections, out'.notifs, idx :: out'.calls,
        out'.hasAnyPosting, out'.quotaTriggered, out'.finalRemaining, out'.finalQms⟩ := by
  have h429 : ¬ status = 429 := by
    intro he
    rw [he] at hok
    exact absurd hok (by decide)
  have hfetch : fetchRoleResults now role (search idx) = ([], .ok []) := by
    rw [hsearch]
    simp only [fetchRoleResults]
    rw [if_neg h429, if_neg (by rw [hok]; decide)]
    rfl
  refine ⟨hfetch, rfl, ?_⟩
  rw [runRoles_success now search total role rest idx remaining qms [] [] hrem hfetch, hrec]
  simp [consOk]

theorem C10_witness :
    fetchRoleResults ⟨2026, 9, 12⟩ "A"
      ((fun _ => SearchOutcome.response 200 "OK" "" ⟨none, some "x", none⟩) 0) = ([], .ok []) ∧
    formatRoleSection "A" [] = "Role: " ++ "A" ++ "\n" ++ "No new postings published today." ∧
    runRoles ⟨2026, 9, 12⟩ (fun _ => SearchOutcome.response 200 "OK" "" ⟨none, some "x", none⟩) 5
      ["A"] 0 5 false =
      .ok ⟨formatRoleSection "A" [] :: (LoopOut.mk [] [] [] false false 4 false).sections,
        (LoopOut.mk [] [] [] false false 4 false).notifs,
        0 :: (LoopOut.mk [] [] [] false false 4 false).calls,
        (LoopOut.mk [] [] [] false false 4 false).hasAnyPosting,
        (LoopOut.mk [] [] [] false false 4 false).quotaTriggered,
        (LoopOut.mk [] [] [] false false 4 false).finalRemaining,
        (LoopOut.mk [] [] [] false false 4 false).finalQms⟩ :=
  C10_missing_jobs_results ⟨2026, 9, 12⟩
    (fun _ => SearchOutcome.response 200 "OK" "" ⟨none, some "x", none⟩) 5 "A" [] 0 5 false
    200 "OK" "" (some "x") (LoopOut.mk [] [] [] false false 4 false)
    (by decide) rfl (by decide) rfl

/-- C2 (counterexample to the claim as stated) — with roles A,B,C, an
initial quota of 2 and both searches succeeding, the third section is NOT
the plain "skipped, quota reached earlier" variant: the first skipped role
receives the triggered-style section carrying the explanatory message
(`formatQuotaSection role true details`), because the loop passes
`isFirstQuotaNotice = true` on the first skip even when the quota was
reached naturally. -/
theorem C2_counterexample :
    sectionsOf (fetchJobs ⟨2026, 9, 12⟩ ["A", "B", "C"]
        (.response 200 "OK" "" ⟨some (.finite 2), none, none⟩)
        (fun _ => .response 200 "OK" "" ⟨none, none, some []⟩)) =
      some ["Role: A\nNo new postings published today.",
        "Role: B\nNo new postings published today.",
        "Role: C\nSerpAPI only had 2 searches available and they were used by earlier roles in this run.\nRemaining roles were skipped to avoid extra API calls."] ∧
    "Role: C\nSerpAPI only had 2 searches available and they were used by earlier roles in this run.\nRemaining roles were skipped to avoid extra API calls." ≠
      formatQuotaSection "C" false none := by
  constructor
  · rfl
  · decide

/-- C2 (amended) — given roles `["A","B","C"]` and initial quota 2 with
both searches succeeding: A and B each produce a results/no-results
section and consume one search each (remaining ends at 0, exactly calls
`[0, 1]` are made), and C — the first skipped role — produces the
*triggered-here-style* section carrying the explanatory
"only had 2 searches" message; the output has exactly 3 sections in order
A,B,C and the report email is sent.  If instead B's search itself returns
HTTP 429, B's section is the triggered-here variant carrying the 429
message and C's is the plain skip variant. -/
theorem C2_quota_scenarios (now : LocalDate) (st bt st2 bt2 : String)
    (jr : Nat → Option (List Job)) (j429 : SearchJson) (o2 : SearchOutcome) :
    (fetchJobs now ["A", "B", "C"]
        (.response 200 st bt ⟨some (.finite 2), none, none⟩)
        (fun i => .response 200 st bt ⟨none, none, jr i⟩) =
      .completed
        ⟨[formatRoleSection "A" (classifyDedup now (jr 0)),
          formatRoleSection "B" (classifyDedup now (jr 1)),
          formatQuotaSection "C" true
            (some "SerpAPI only had 2 searches available and they were used by earlier roles in this run.")],
          [], [0, 1],
          !(classifyDedup now (jr 0)).isEmpty || !(classifyDedup now (jr 1)).isEmpty,
          true, 0, true⟩
        (some (String.intercalate "\n\n"
          [formatRoleSection "A" (classifyDedup now (jr 0)),
            formatRoleSection "B" (classifyDedup now (jr 1)),
            formatQuotaSection "C" true
              (some "SerpAPI only had 2 searches available and they were used by earlier roles in this run.")]))) ∧
    (fetchJobs now ["A", "B", "C"]
        (.response 200 st bt ⟨some (.finite 2), none, none⟩)
        (fun i => if i = 0 then .response 200 st bt ⟨none, none, jr 0⟩
          else if i = 1 then .response 429 st2 bt2 j429 else o2) =
      .completed
        ⟨[formatRoleSection "A" (classifyDedup now (jr 0)),
          formatQuotaSection "B" true
            (some "SerpAPI free tier limit reached while fetching \"B\"."),
          formatQuotaSection "C" false none],
          [], [0, 1],
          !(classifyDedup now (jr 0)).isEmpty,
          true, 0, true⟩
        (some (String.intercalate "\n\n"
          [formatRoleSection "A" (classifyDedup now (jr 0)),
            formatQuotaSection "B" true
              (some "SerpAPI free tier limit reached while fetching \"B\"."),
            formatQuotaSection "C" false none]))) := by
  constructor
  · have hrun : runRoles now (fun i => .response 200 st bt ⟨none, none, jr i⟩) 2
        ["A", "B", "C"] 0 2 false =
        .ok ⟨[formatRoleSection "A" (classifyDedup now (jr 0)),
          formatRoleSection "B" (classifyDedup now (jr 1)),
          formatQuotaSection "C" true
            (some "SerpAPI only had 2 searches available and they were used by earlier roles in this run.")],
          [], [0, 1],
          !(classifyDedup now (jr 0)).isEmpty || !(classifyDedup now (jr 1)).isEmpty,
          true, 0, true⟩ := by
      rw [runRoles_success now (fun i => SearchOutcome.response 200 st bt ⟨none, none, jr i⟩) 2 "A" ["B", "C"] 0 2 false [] (classifyDedup now (jr 0))
          (by decide) rfl,
        runRoles_success now (fun i => SearchOutcome.response 200 st bt ⟨none, none, jr i⟩) 2 "B" ["C"] (0 + 1) (2 - 1) false [] (classifyDedup now (jr 1))
          (by decide) rfl,
        runRoles_skip now (fun i => SearchOutcome.response 200 st bt ⟨none, none, jr i⟩) 2 "C" [] (0 + 1 + 1) (2 - 1 - 1) false (by decide),
        runRoles_nil]
      simp only [consOk, Bool.not_false, List.append_nil, List.nil_append, Bool.or_false]
      norm_num
      rfl
    rw [fetchJobs_completed now ["A", "B", "C"] (AccountOutcome.response 200 st bt ⟨some (.finite 2), none, none⟩) _ [] 2 _ rfl rfl hrun]
    rfl
  · have hrun : runRoles now (fun i => if i = 0 then .response 200 st bt ⟨none, none, jr 0⟩
        else if i = 1 then .response 429 st2 bt2 j429 else o2) 2
        ["A", "B", "C"] 0 2 false =
        .ok ⟨[formatRoleSection "A" (classifyDedup now (jr 0)),
          formatQuotaSection "B" true
            (some "SerpAPI free tier limit reached while fetching \"B\"."),
          formatQuotaSection "C" false none],
          [], [0, 1],
          !(classifyDedup now (jr 0)).isEmpty,
          true, 0, true⟩ := by
      rw [runRoles_success now (fun i => if i = 0 then SearchOutcome.response 200 st bt ⟨none, none, jr 0⟩
          else if i = 1 then SearchOutcome.response 429 st2 bt2 j429 else o2) 2 "A" ["B", "C"] 0 2 false [] (classifyDedup now (jr 0))
          (by decide) rfl,
        runRoles_quota now (fun i => if i = 0 then SearchOutcome.response 200 st bt ⟨none, none, jr 0⟩
          else if i = 1 then SearchOutcome.response 429 st2 bt2 j429 else o2) 2 "B" ["C"] (0 + 1) (2 - 1) false []
          "SerpAPI free tier limit reached while fetching \"B\"." (by decide) rfl,
        runRoles_skip now (fun i => if i = 0 then SearchOutcome.response 200 st bt ⟨none, none, jr 0⟩
          else if i = 1 then SearchOutcome.response 429 st2 bt2 j429 else o2) 2 "C" [] (0 + 1 + 1) 0 true (by decide),
        runRoles_nil]
      simp only [consOk, Bool.not_true, List.append_nil, List.nil_append, Bool.or_false]
      norm_num
      rfl
    rw [fetchJobs_completed now ["A", "B", "C"] (AccountOutcome.response 200 st bt ⟨some (.finite 2), none, none⟩) _ [] 2 _ rfl rfl hrun]
    rfl

/-! ### Classifying per-role outcomes, and composing loop runs -/

theorem fetchRoleResults_quota_of (now : LocalDate) (role : String) (o : SearchOutcome)
    (h : isQuotaOutcome o = true) :
    ∃ m, fetchRoleResults now role o = ([], .error (.quotaExceeded m)) := by
  cases o with
  | transportError msg => simp [isQuotaOutcome] at h
  | response status st bt json =>
    simp only [fetchRoleResults]
    by_cases h429 : status = 429
    · rw [if_pos h429]
      exact ⟨roleQuotaMsg role, rfl⟩
    · rw [if_neg h429]
      simp only [isQuotaOutcome] at h
      rw [beq_eq_false_iff_ne.mpr h429, Bool.false_or, Bool.and_eq_true] at h
      obtain ⟨hok, herr⟩ := h
      rw [if_neg (by rw [hok]; decide)]
      cases herrj : json.error with
      | none => rw [herrj] at herr; simp at herr
      | some e =>
        rw [herrj] at herr
        rw [Bool.and_eq_true] at herr
        have he : ¬ e = "" := by simpa using herr.1
        refine ⟨providerErrMsg role e json.error_code, ?_⟩
        simp [herrj, he, herr.2]

theorem fetchRoleResults_fatal_of (now : LocalDate) (role : String) (o : SearchOutcome)
    (h : isFatalOutcome o = true) :
    ∃ m notifs, fetchRoleResults now role o = (notifs, .error (.fatal m)) ∧ notifs ≠ [] := by
  cases o with
  | transportError msg =>
    exact ⟨msg, ["SerpAPI request error for \"" ++ role ++ "\": " ++ msg], rfl, by simp⟩
  | response status st bt json =>
    simp only [isFatalOutcome, Bool.and_eq_true, Bool.or_eq_true] at h
    obtain ⟨h429, hrest⟩ := h
    have h429' : ¬ status = 429 := by simpa using h429
    simp only [fetchRoleResults]
    rw [if_neg h429']
    by_cases hok : respOk status = true
    · rcases hrest with hbad | herr
      · rw [hok] at hbad; simp at hbad
      · rw [if_neg (by rw [hok]; decide)]
        cases herrj : json.error with
        | none => rw [herrj] at herr; simp at herr
        | some e =>
          rw [herrj] at herr
          rw [Bool.and_eq_true] at herr
          have he : ¬ e = "" := by simpa using herr.1
          have hq : isQuotaErrorMessage e = false := by simpa using herr.2
          refine ⟨providerErrMsg role e json.error_code,
            [providerErrMsg role e json.error_code], ?_, by simp⟩
          simp [herrj, he, hq]
    · have hok' : respOk status = false := Bool.not_eq_true _ ▸ hok
      rw [if_pos (by rw [hok']; decide)]
      exact ⟨"SerpAPI request failed with status " ++ toString status,
        ["SerpAPI responded with status " ++ toString status ++ " for \"" ++ role ++
          "\": " ++ st ++ "\n" ++ bt], rfl, by simp⟩

theorem consOk_combineRun (sec : String) (notifs : List String) (calls : List Nat)
    (hasP qt : Bool) (a : Except AbortOut LoopOut)
    (f : Int → Bool → Except AbortOut LoopOut) :
    consOk sec notifs calls hasP qt (combineRun a f) =
      combineRun (consOk sec notifs calls hasP qt a) f := by
  cases a with
  | error ab => rfl
  | ok out =>
    simp only [combineRun, consOk]
    cases hf : f out.finalRemaining out.finalQms with
    | error ab2 => simp [consOk, List.append_assoc]
    | ok out2 => simp [consOk, List.append_assoc, Bool.or_assoc]

theorem runRoles_append (now : LocalDate) (search : Nat → SearchOutcome) (total : Int) :
    ∀ (r1 r2 : List String) (idx : Nat) (remaining : Int) (qms : Bool),
      runRoles now search total (r1 ++ r2) idx remaining qms =
        combineRun (runRoles now search total r1 idx remaining qms)
          (fun rem qms2 => runRoles now search total r2 (idx + r1.length) rem qms2) := by
  intro r1
  induction r1 with
  | nil =>
    intro r2 idx remaining qms
    rw [List.nil_append, runRoles_nil]
    simp only [combineRun, List.length_nil, Nat.add_zero]
    cases hr : runRoles now search total r2 idx remaining qms with
    | error ab => rfl
    | ok out2 => rfl
  | cons role r1' ih =>
    intro r2 idx remaining qms
    have harith : idx + 1 + r1'.length = idx + (role :: r1').length := by
      simp [List.length_cons]
      omega
    rw [List.cons_append]
    by_cases hrem : remaining ≤ 0
    · rw [runRoles_skip now search total role (r1' ++ r2) idx remaining qms hrem,
        runRoles_skip now search total role r1' idx remaining qms hrem,
        ih r2 (idx + 1) remaining true, consOk_combineRun, harith]
    · rcases hfetch : fetchRoleResults now role (search idx) with ⟨notifs, res⟩
      cases res with
      | ok jobs =>
        rw [runRoles_success now search total role (r1' ++ r2) idx remaining qms notifs jobs
            hrem hfetch,
          runRoles_success now search total role r1' idx remaining qms notifs jobs hrem hfetch,
          ih r2 (idx + 1) (remaining - 1) qms, consOk_combineRun, harith]
      | error e =>
        cases e with
        | quotaExceeded msg =>
          rw [runRoles_quota now search total role (r1' ++ r2) idx remaining qms notifs msg
              hrem hfetch,
            runRoles_quota now search total role r1' idx remaining qms notifs msg hrem hfetch,
            ih r2 (idx + 1) 0 true, consOk_combineRun, harith]
        | fatal msg =>
          rw [runRoles_fatal now search total role (r1' ++ r2) idx remaining qms notifs msg
              hrem hfetch,
            runRoles_fatal now search total role r1' idx remaining qms notifs msg hrem hfetch]
          rfl

/-- Once the quota is exhausted and the first notice is out
(`quotaMessageSent = true`), every remaining role is skipped with the
plain variant and no search call is made. -/
theorem runRoles_skipAll (now : LocalDate) (search : Nat → SearchOutcome) (total : Int) :
    ∀ (rest : List String) (idx : Nat) (remaining : Int), remaining ≤ 0 →
      runRoles now search total rest idx remaining true =
        .ok ⟨rest.map (fun r => formatQuotaSection r false none), [], [], false,
          !rest.isEmpty, remaining, true⟩ := by
  intro rest
  induction rest with
  | nil =>
    intro idx remaining h
    rw [runRoles_nil]
    rfl
  | cons role rest' ih =>
    intro idx remaining h
    rw [runRoles_skip now search total role rest' idx remaining true h,
      ih (idx + 1) remaining h]
    simp [consOk, skipDetails]

/-- C3 — when the role at position `r1.length` is reached with quota left
and its search hits a quota-exceeded condition (HTTP 429, or a truthy
provider error message containing "quota"/"limit"/"exceeded",
case-insensitive), the orchestrator does not abort: that role gets the
"quota triggered here" section carrying the thrown message, the remaining
count is forced to 0 and every later role takes the skip branch with no
further search call (the call list ends at `r1.length`), and the run
completes and sends the report email. -/
theorem C3_quota_error_recovers (now : LocalDate) (acct : AccountOutcome)
    (search : Nat → SearchOutcome) (r1 : List String) (role : String) (r2 : List String)
    (notifs0 : List String) (total : Int) (out1 : LoopOut)
    (hacct : fetchRemainingSearches acct = (notifs0, .ok total))
    (h1 : runRoles now search total r1 0 total false = .ok out1)
    (h2 : 0 < out1.finalRemaining)
    (h3 : isQuotaOutcome (search r1.length) = true) :
    ∃ m out,
      fetchRoleResults now role (search r1.length) = ([], .error (.quotaExceeded m)) ∧
      fetchJobs now (r1 ++ role :: r2) acct search =
        .completed out (some (String.intercalate "\n\n" out.sections)) ∧
      out.sections = out1.sections ++ formatQuotaSection role true (some m) ::
        r2.map (fun r => formatQuotaSection r false none) ∧
      out.sections.length = (r1 ++ role :: r2).length ∧
      out.calls = out1.calls ++ [r1.length] ∧
      out.quotaTriggered = true ∧
      out.finalRemaining = 0 := by
  obtain ⟨m, hfetchm⟩ := fetchRoleResults_quota_of now role (search r1.length) h3
  have hrem : ¬ out1.finalRemaining ≤ 0 := by omega
  have hmid : runRoles now search total (role :: r2) r1.length out1.finalRemaining out1.finalQms =
      .ok ⟨formatQuotaSection role true (some m) ::
          r2.map (fun r => formatQuotaSection r false none),
        [], [r1.length], false, true, 0, true⟩ := by
    rw [runRoles_quota now search total role r2 r1.length out1.finalRemaining out1.finalQms
        [] m hrem hfetchm,
      runRoles_skipAll now search total r2 (r1.length + 1) 0 le_rfl]
    simp [consOk]
  have hrun : runRoles now search total (r1 ++ role :: r2) 0 total false =
      .ok ⟨out1.sections ++ formatQuotaSection role true (some m) ::
          r2.map (fun r => formatQuotaSection r false none),
        out1.notifs, out1.calls ++ [r1.length], out1.hasAnyPosting, true, 0, true⟩ := by
    rw [runRoles_append now search total r1 (role :: r2) 0 total false, h1]
    simp only [combineRun, Nat.zero_add]
    rw [hmid]
    simp
  have hne : (r1 ++ role :: r2).isEmpty = false := by
    cases r1 <;> rfl
  obtain ⟨hlen1, _⟩ := runRoles_ok_shape now search total r1 0 total false out1 h1
  refine ⟨m, ⟨out1.sections ++ formatQuotaSection role true (some m) ::
      r2.map (fun r => formatQuotaSection r false none),
      out1.notifs, out1.calls ++ [r1.length], out1.hasAnyPosting, true, 0, true⟩,
    hfetchm, ?_, rfl, ?_, rfl, rfl, rfl⟩
  · rw [fetchJobs_completed now (r1 ++ role :: r2) acct search notifs0 total _ hne hacct hrun,
      if_neg (by simp)]
  · simp only [List.length_append, List.length_cons, List.length_map, hlen1]

theorem C3_witness :
    ∃ m out,
      fetchRoleResults ⟨2026, 9, 12⟩ "A"
        ((fun _ => SearchOutcome.response 429 "Too Many Requests" "" ⟨none, none, none⟩)
          (([] : List String).length)) = ([], .error (.quotaExceeded m)) ∧
      fetchJobs ⟨2026, 9, 12⟩ (([] : List String) ++ "A" :: ["B"])
        (.response 200 "OK" "" ⟨some (.finite 2), none, none⟩)
        (fun _ => SearchOutcome.response 429 "Too Many Requests" "" ⟨none, none, none⟩) =
        .completed out (some (String.intercalate "\n\n" out.sections)) ∧
      out.sections = (LoopOut.mk [] [] [] false false 2 false).sections ++
        formatQuotaSection "A" true (some m) ::
          (["B"] : List String).map (fun r => formatQuotaSection r false none) ∧
      out.sections.length = (([] : List String) ++ "A" :: ["B"]).length ∧
      out.calls = (LoopOut.mk [] [] [] false false 2 false).calls ++ [([] : List String).length] ∧
      out.quotaTriggered = true ∧
      out.finalRemaining = 0 :=
  C3_quota_error_recovers ⟨2026, 9, 12⟩
    (.response 200 "OK" "" ⟨some (.finite 2), none, none⟩)
    (fun _ => SearchOutcome.response 429 "Too Many Requests" "" ⟨none, none, none⟩)
    [] "A" ["B"] [] 2 (LoopOut.mk [] [] [] false false 2 false)
    rfl rfl (by decide) (by decide)

/-- C4 — when the role at position `r1.length` is reached with quota left
and its search fails with a non-quota error (transport failure, non-2xx
non-429 status, or a truthy non-quota provider error), the run aborts by
propagating the error after a non-empty failure notification: no report
email is sent, and the sections are exactly the ones for the roles before
the failing one. -/
theorem C4_fatal_error_aborts (now : LocalDate) (acct : AccountOutcome)
    (search : Nat → SearchOutcome) (r1 : List String) (role : String) (r2 : List String)
    (notifs0 : List String) (total : Int) (out1 : LoopOut)
    (hacct : fetchRemainingSearches acct = (notifs0, .ok total))
    (h1 : runRoles now search total r1 0 total false = .ok out1)
    (h2 : 0 < out1.finalRemaining)
    (h3 : isFatalOutcome (search r1.length) = true) :
    ∃ m notifs,
      fetchRoleResults now role (search r1.length) = (notifs, .error (.fatal m)) ∧
      notifs ≠ [] ∧
      fetchJobs now (r1 ++ role :: r2) acct search =
        .aborted ⟨m, out1.sections, notifs0 ++ (out1.notifs ++ notifs),
          out1.calls ++ [r1.length]⟩ ∧
      emailOf (fetchJobs now (r1 ++ role :: r2) acct search) = none ∧
      out1.sections.length = r1.length := by
  obtain ⟨m, notifs, hfetchm, hnn⟩ := fetchRoleResults_fatal_of now role (search r1.length) h3
  have hrem : ¬ out1.finalRemaining ≤ 0 := by omega
  have hrun : runRoles now search total (r1 ++ role :: r2) 0 total false =
      .error ⟨m, out1.sections, out1.notifs ++ notifs, out1.calls ++ [r1.length]⟩ := by
    rw [runRoles_append now search total r1 (role :: r2) 0 total false, h1]
    simp only [combineRun, Nat.zero_add]
    rw [runRoles_fatal now search total role r2 r1.length out1.finalRemaining out1.finalQms
        notifs m hrem hfetchm]
    simp
  have hne : (r1 ++ role :: r2).isEmpty = false := by
    cases r1 <;> rfl
  have habort := fetchJobs_aborted_eq now (r1 ++ role :: r2) acct search notifs0 total
    ⟨m, out1.sections, out1.notifs ++ notifs, out1.calls ++ [r1.length]⟩ hne hacct hrun
  obtain ⟨hlen1, _⟩ := runRoles_ok_shape now search total r1 0 total false out1 h1
  refine ⟨m, notifs, hfetchm, hnn, habort, ?_, hlen1⟩
  rw [habort]
  rfl

theorem C4_witness :
    ∃ m notifs,
      fetchRoleResults ⟨2026, 9, 12⟩ "A"
        ((fun _ => SearchOutcome.transportError "socket hang up")
          (([] : List String).length)) = (notifs, .error (.fatal m)) ∧
      notifs ≠ [] ∧
      fetchJobs ⟨2026, 9, 12⟩ (([] : List String) ++ "A" :: ["B"])
        (.response 200 "OK" "" ⟨some (.finite 2), none, none⟩)
        (fun _ => SearchOutcome.transportError "socket hang up") =
        .aborted ⟨m, (LoopOut.mk [] [] [] false false 2 false).sections,
          ([] : List String) ++ ((LoopOut.mk [] [] [] false false 2 false).notifs ++ notifs),
          (LoopOut.mk [] [] [] false false 2 false).calls ++ [([] : List String).length]⟩ ∧
      emailOf (fetchJobs ⟨2026, 9, 12⟩ (([] : List String) ++ "A" :: ["B"])
        (.response 200 "OK" "" ⟨some (.finite 2), none, none⟩)
        (fun _ => SearchOutcome.transportError "socket hang up")) = none ∧
      (LoopOut.mk [] [] [] false false 2 false).sections.length = ([] : List String).length :=
  C4_fatal_error_aborts ⟨2026, 9, 12⟩
    (.response 200 "OK" "" ⟨some (.finite 2), none, none⟩)
    (fun _ => SearchOutcome.transportError "socket hang up")
    [] "A" ["B"] [] 2 (LoopOut.mk [] [] [] false false 2 false)
    rfl rfl (by decide) (by decide)

/-- C9 (counterexample to the claim as stated) — the account lookup takes
the *first present* field and fails when that one is not finite, even
though a later field yields a finite number: with
`total_searches_left` present but NaN-like and `plan_searches_left = 5`,
the lookup fails, contradicting "fails iff none of the fields yields a
finite number (or HTTP/transport failure)". -/
theorem C9_counterexample :
    (fetchRemainingSearches (.response 200 "OK" ""
        ⟨some .nanLike, some (.finite 5), none⟩)).2 =
      .error "Unable to determine remaining SerpAPI searches from account response." ∧
    (AccountJson.mk (some .nanLike) (some (.finite 5)) none).plan_searches_left =
      some (.finite 5) ∧
    respOk 200 = true := by
  exact ⟨rfl, rfl, rfl⟩

/-- C9 (amended) — `fetchRemainingSearches` returns `n` iff the HTTP
status is successful and the *first present (non-nullish)* field among
`total_searches_left`, `plan_searches_left`, `searches_left` (in that
priority order, via the `??` chain) converts to the finite number `n`;
a transport failure propagates the transport error; and every failure is
preceded by a (best-effort) failure notification. -/
theorem C9_remaining_extraction :
    (∀ (status : Nat) (st bt : String) (json : AccountJson) (n : Int),
      (fetchRemainingSearches (.response status st bt json)).2 = Except.ok n ↔
        (respOk status = true ∧
          (json.total_searches_left <|> json.plan_searches_left <|> json.searches_left) =
            some (.finite n))) ∧
    (∀ msg, (fetchRemainingSearches (.transportError msg)).2 = .error msg) ∧
    (∀ (acct : AccountOutcome) (e : String),
      (fetchRemainingSearches acct).2 = .error e → (fetchRemainingSearches acct).1 ≠ []) := by
  refine ⟨?_, fun msg => rfl, ?_⟩
  · intro status st bt json n
    simp only [fetchRemainingSearches]
    by_cases hok : respOk status = true
    · rw [if_neg (by rw [hok]; decide)]
      cases hchain : (json.total_searches_left <|> json.plan_searches_left <|> json.searches_left) with
      | none => simp [hok, hchain]
      | some jn =>
        cases jn with
        | finite k => simp [hok, hchain]
        | nanLike => simp [hok, hchain]
    · have hok' : respOk status = false := Bool.not_eq_true _ ▸ hok
      rw [if_pos (by rw [hok']; decide)]
      simp [hok']
  · intro acct e
    cases acct with
    | transportError msg => intro _; simp [fetchRemainingSearches]
    | response status st bt json =>
      simp only [fetchRemainingSearches]
      by_cases hok : respOk status = true
      · rw [if_neg (by rw [hok]; decide)]
        cases hchain : (json.total_searches_left <|> json.plan_searches_left <|> json.searches_left) with
        | none => intro _; simp
        | some jn =>
          cases jn with
          | finite k => intro h; simp at h
          | nanLike => intro _; simp
      · have hok' : respOk status = false := Bool.not_eq_true _ ▸ hok
        rw [if_pos (by rw [hok']; decide)]
        intro _
        simp

theorem C9_witness :
    ((fetchRemainingSearches (.response 200 "OK" "" ⟨none, none, some (.finite 7)⟩)).2 =
        Except.ok 7 ↔
      (respOk 200 = true ∧
        ((AccountJson.mk none none (some (.finite 7))).total_searches_left <|>
          (AccountJson.mk none none (some (.finite 7))).plan_searches_left <|>
          (AccountJson.mk none none (some (.finite 7))).searches_left) =
            some (.finite 7))) ∧
    (fetchRemainingSearches (.transportError "getaddrinfo ENOTFOUND")).2 =
      .error "getaddrinfo ENOTFOUND" ∧
    (fetchRemainingSearches (.transportError "getaddrinfo ENOTFOUND")).1 ≠ [] :=
  ⟨C9_remaining_extraction.1 200 "OK" "" ⟨none, none, some (.finite 7)⟩ 7,
   C9_remaining_extraction.2.1 "getaddrinfo ENOTFOUND",
   C9_remaining_extraction.2.2 (.transportError "getaddrinfo ENOTFOUND")
     "getaddrinfo ENOTFOUND" rfl⟩

/-! ### Freshness-classifier lemmas -/

theorem digitChar_isDigit (k : Nat) : (digitChar k).isDigit = true := by
  rcases k with _|_|_|_|_|_|_|_|_|n <;> first | decide | rfl

theorem dVal_digitChar (k : Nat) (h : k ≤ 9) : dVal (digitChar k) = k := by
  rcases k with _|_|_|_|_|_|_|_|_|_|n
  · rfl
  · rfl
  · rfl
  · rfl
  · rfl
  · rfl
  · rfl
  · rfl
  · rfl
  · rfl
  · exact absurd h (by omega)

theorem isoAllowed_digitChar (k : Nat) : isoAllowedChar (digitChar k) = true := by
  rcases k with _|_|_|_|_|_|_|_|_|n <;> first | decide | rfl

theorem isoLowered_toLower (c : Char) (h : isoAllowedChar c = true) :
    isoLoweredChar (Char.toLower c) = true := by
  simp only [isoAllowedChar, Bool.or_eq_true, beq_iff_eq] at h
  rcases h with ((((((((((((rfl|rfl)|rfl)|rfl)|rfl)|rfl)|rfl)|rfl)|rfl)|rfl)|rfl)|rfl)|rfl) <;> decide

theorem isoLowered_not_j (c : Char) (h : isoLoweredChar c = true) : ¬ c = 'j' := by
  simp only [isoLoweredChar, Bool.or_eq_true, beq_iff_eq] at h
  rcases h with ((((((((((((rfl|rfl)|rfl)|rfl)|rfl)|rfl)|rfl)|rfl)|rfl)|rfl)|rfl)|rfl)|rfl) <;> decide

theorem sanitize_id_of_lowered (c : Char) (h : isoLoweredChar c = true) :
    sanitizeChar c = c := by
  simp only [isoLoweredChar, Bool.or_eq_true, beq_iff_eq] at h
  rcases h with ((((((((((((rfl|rfl)|rfl)|rfl)|rfl)|rfl)|rfl)|rfl)|rfl)|rfl)|rfl)|rfl)|rfl) <;> decide

theorem isoChars_allowed (y mo da hh mi ss : Nat) :
    ∀ c ∈ isoChars y mo da hh mi ss, isoAllowedChar c = true := by
  intro c hc
  have hc2 : c ∈ [digitChar (y / 1000), digitChar (y / 100 % 10), digitChar (y / 10 % 10),
      digitChar (y % 10), '-', digitChar (mo / 10), digitChar (mo % 10), '-',
      digitChar (da / 10), digitChar (da % 10), 'T', digitChar (hh / 10), digitChar (hh % 10),
      ':', digitChar (mi / 10), digitChar (mi % 10), ':', digitChar (ss / 10),
      digitChar (ss % 10)] := by
    simpa [isoChars, twoDigits] using hc
  fin_cases hc2 <;> first
    | exact isoAllowed_digitChar _
    | decide

theorem wordsOfAux_subset : ∀ (l acc w : List Char), w ∈ wordsOfAux l acc →
    ∀ c, c ∈ w → c ∈ l ∨ c ∈ acc := by
  intro l
  induction l with
  | nil =>
    intro acc w hw c hc
    by_cases ha : acc.isEmpty = true
    · simp [wordsOfAux, ha] at hw
    · simp only [wordsOfAux, ha, Bool.false_eq_true, if_false, List.mem_singleton] at hw
      subst hw
      exact Or.inr (List.mem_reverse.mp hc)
  | cons ch cs ih =>
    intro acc w hw c hc
    by_cases hwc : jsWordChar ch = true
    · simp only [wordsOfAux, hwc, if_true] at hw
      rcases ih (ch :: acc) w hw c hc with h1 | h2
      · exact Or.inl (List.mem_cons_of_mem ch h1)
      · rcases List.mem_cons.mp h2 with rfl | h3
        · exact Or.inl (List.mem_cons_self _ _)
        · exact Or.inr h3
    · by_cases ha : acc.isEmpty = true
      · simp only [wordsOfAux, hwc, Bool.false_eq_true, if_false, ha, if_true] at hw
        rcases ih [] w hw c hc with h1 | h2
        · exact Or.inl (List.mem_cons_of_mem ch h1)
        · simp at h2
      · simp only [wordsOfAux, hwc, ha, Bool.false_eq_true, if_false] at hw
        rcases List.mem_cons.mp hw with rfl | h3
        · exact Or.inr (List.mem_reverse.mp hc)
        · rcases ih [] w h3 c hc with h1 | h2
          · exact Or.inl (List.mem_cons_of_mem ch h1)
          · simp at h2

theorem containsSeq_head (needle : List Char) (c : Char) (hh : needle.head? = some c) :
    ∀ hay, containsSeq needle hay = true → c ∈ hay := by
  intro hay
  induction hay with
  | nil =>
    intro h
    cases needle with
    | nil => simp at hh
    | cons a n => simp [containsSeq] at h
  | cons b bs ih =>
    intro h
    rw [containsSeq, Bool.or_eq_true] at h
    rcases h with h1 | h2
    · cases needle with
      | nil => simp at hh
      | cons a n =>
        have ha : a = c := by simpa using hh
        rw [leadsWith, Bool.and_eq_true] at h1
        have hab : a = b := by simpa using h1.1
        rw [← ha, hab]
        exact List.mem_cons_self _ _
    · exact List.mem_cons_of_mem b (ih h2)

theorem mem_jsTrim (c : Char) (l : List Char) (h : c ∈ jsTrim l) : c ∈ l := by
  unfold jsTrim at h
  rw [List.mem_reverse] at h
  have h1 := (List.dropWhile_sublist Char.isWhitespace).subset h
  rw [List.mem_reverse] at h1
  exact (List.dropWhile_sublist Char.isWhitespace).subset h1

theorem relWord_bad_char (w : List Char) (h : relWords.contains w = true) :
    ∃ c, c ∈ w ∧ isoLoweredChar c = false := by
  have hmem : w ∈ relWords := by simpa using h
  simp only [relWords, List.mem_cons, List.not_mem_nil, or_false] at hmem
  rcases hmem with rfl|rfl|rfl|rfl|rfl|rfl|rfl|rfl|rfl
  · exact ⟨'m', by decide, by decide⟩
  · exact ⟨'m', by decide, by decide⟩
  · exact ⟨'m', by decide, by decide⟩
  · exact ⟨'m', by decide, by decide⟩
  · exact ⟨'h', by decide, by decide⟩
  · exact ⟨'h', by decide, by decide⟩
  · exact ⟨'h', by decide, by decide⟩
  · exact ⟨'h', by decide, by decide⟩
  · exact ⟨'o', by decide, by decide⟩

/-- On a string of strict ISO date-time characters, the classifier's
"just posted"/"just now" checks and relative-word patterns never fire, so
the result is exactly the date comparison. -/
theorem isPostedTodayList_iso (now : LocalDate) (raw : List Char)
    (hall : ∀ c ∈ raw, isoAllowedChar c = true) :
    isPostedTodayList now raw =
      (match parseLocalDate raw with
       | some d => decide (d = now)
       | none => false) := by
  have hnorm : ∀ c ∈ jsTrim (raw.map Char.toLower), isoLoweredChar c = true := by
    intro c hc
    have hc2 := mem_jsTrim c _ hc
    rw [List.mem_map] at hc2
    obtain ⟨c', hc', rfl⟩ := hc2
    exact isoLowered_toLower c' (hall c' hc')
  have hjp : containsSeq "just posted".toList (jsTrim (raw.map Char.toLower)) = false := by
    by_contra hcon
    rw [Bool.not_eq_false] at hcon
    have hj := containsSeq_head "just posted".toList 'j' rfl _ hcon
    exact absurd rfl (isoLowered_not_j 'j' (hnorm 'j' hj))
  have hjn : containsSeq "just now".toList (jsTrim (raw.map Char.toLower)) = false := by
    by_contra hcon
    rw [Bool.not_eq_false] at hcon
    have hj := containsSeq_head "just now".toList 'j' rfl _ hcon
    exact absurd rfl (isoLowered_not_j 'j' (hnorm 'j' hj))
  have hword : (wordsOf ((jsTrim (raw.map Char.toLower)).map sanitizeChar)).any
      (fun w => relWords.contains w) = false := by
    by_contra hcon
    rw [Bool.not_eq_false, List.any_eq_true] at hcon
    obtain ⟨w, hw, hrel⟩ := hcon
    obtain ⟨c, hcw, hbad⟩ := relWord_bad_char w hrel
    rcases wordsOfAux_subset _ [] w hw c hcw with h1 | h2
    · rw [List.mem_map] at h1
      obtain ⟨c', hc', heq⟩ := h1
      have hlow := hnorm c' hc'
      rw [sanitize_id_of_lowered c' hlow] at heq
      subst heq
      simp [hlow] at hbad
    · simp at h2
  simp only [isPostedTodayList, hjp, hjn, hword]
  simp

/-- The strict ISO renderer round-trips through `parseLocalDate` onto the
0-based local date triple. -/
theorem parseLocalDate_isoChars (y mo da hh mi ss : Nat)
    (hy : y ≤ 9999) (hmo1 : 1 ≤ mo) (hmo2 : mo ≤ 12) (hda1 : 1 ≤ da) (hda2 : da ≤ 31)
    (hhh : hh ≤ 23) (hmi : mi ≤ 59) (hss : ss ≤ 59) :
    parseLocalDate (isoChars y mo da hh mi ss) = some ⟨y, mo - 1, da⟩ := by
  have e1 : dVal (digitChar (y / 1000)) = y / 1000 := dVal_digitChar _ (by omega)
  have e2 : dVal (digitChar (y / 100 % 10)) = y / 100 % 10 := dVal_digitChar _ (by omega)
  have e3 : dVal (digitChar (y / 10 % 10)) = y / 10 % 10 := dVal_digitChar _ (by omega)
  have e4 : dVal (digitChar (y % 10)) = y % 10 := dVal_digitChar _ (by omega)
  have e5 : dVal (digitChar (mo / 10)) = mo / 10 := dVal_digitChar _ (by omega)
  have e6 : dVal (digitChar (mo % 10)) = mo % 10 := dVal_digitChar _ (by omega)
  have e7 : dVal (digitChar (da / 10)) = da / 10 := dVal_digitChar _ (by omega)
  have e8 : dVal (digitChar (da % 10)) = da % 10 := dVal_digitChar _ (by omega)
  have e9 : dVal (digitChar (hh / 10)) = hh / 10 := dVal_digitChar _ (by omega)
  have e10 : dVal (digitChar (hh % 10)) = hh % 10 := dVal_digitChar _ (by omega)
  have e11 : dVal (digitChar (mi / 10)) = mi / 10 := dVal_digitChar _ (by omega)
  have e12 : dVal (digitChar (mi % 10)) = mi % 10 := dVal_digitChar _ (by omega)
  have e13 : dVal (digitChar (ss / 10)) = ss / 10 := dVal_digitChar _ (by omega)
  have e14 : dVal (digitChar (ss % 10)) = ss % 10 := dVal_digitChar _ (by omega)
  have hsy : 1000 * (y / 1000) + 100 * (y / 100 % 10) + 10 * (y / 10 % 10) + y % 10 = y := by
    omega
  have hsmo : 10 * (mo / 10) + mo % 10 = mo := by omega
  have hsda : 10 * (da / 10) + da % 10 = da := by omega
  have hshh : 10 * (hh / 10) + hh % 10 = hh := by omega
  have hsmi : 10 * (mi / 10) + mi % 10 = mi := by omega
  have hsss : 10 * (ss / 10) + ss % 10 = ss := by omega
  simp only [isoChars, twoDigits, List.cons_append, List.nil_append]
  simp only [parseLocalDate]
  rw [if_pos (by simp [digitChar_isDigit])]
  simp only [e1, e2, e3, e4, e5, e6, e7, e8, e9, e10, e11, e12, e13, e14,
    hsy, hsmo, hsda, hshh, hsmi, hsss]
  rw [if_pos (by simp only [Bool.and_eq_true, decide_eq_true_eq]; omega)]

/-- C6 (counterexample to the claim as stated) — "todays" contains
"today" as a substring (case-insensitively), yet the classifier returns
`false`: the relative patterns are whole-word (`\btoday\b`), so the
universal "for every string containing \"today\"" fails. -/
theorem C6_counterexample :
    containsSeq "today".toList "todays".data = true ∧
    isPostedToday ⟨2026, 9, 12⟩ (some "todays") = false := by
  constructor
  · decide
  · decide

/-- C6 (amended) — the classifier returns `true` on the strings "today",
"Today." and "just posted now" themselves, on every string whose
lowercased+trimmed form contains "just posted" (substring match), and on
every string whose sanitized form contains "today" as a whole word;
"2 weeks ago" and "yesterday" yield `false`; whole-word matching is
required, so "minuteman" (and likewise "todays") does not match; and for
a local ISO timestamp whose date equals today's date in the process-local
timezone the classifier returns `true` at any time of day, while a
timestamp one day prior returns `false`. -/
theorem C6_isPostedToday_cases (now : LocalDate) (s : String) (hh mi ss : Nat) :
    isPostedToday now (some "today") = true ∧
    isPostedToday now (some "Today.") = true ∧
    isPostedToday now (some "just posted now") = true ∧
    isPostedToday now (some "2 weeks ago") = false ∧
    isPostedToday now (some "yesterday") = false ∧
    isPostedToday now (some "minuteman") = false ∧
    (containsSeq "just posted".toList (jsTrim (s.data.map Char.toLower)) = true →
      isPostedToday now (some s) = true) ∧
    ((wordsOf ((jsTrim (s.data.map Char.toLower)).map sanitizeChar)).contains
        "today".toList = true →
      isPostedToday now (some s) = true) ∧
    (hh ≤ 23 → mi ≤ 59 → ss ≤ 59 →
      isPostedToday ⟨2026, 9, 12⟩ (some (String.mk (isoChars 2026 10 12 hh mi ss))) = true ∧
      isPostedToday ⟨2026, 9, 12⟩ (some (String.mk (isoChars 2026 10 11 hh mi ss))) = false) := by
  refine ⟨rfl, rfl, rfl, rfl, rfl, rfl, ?_, ?_, ?_⟩
  · intro hjp
    have hne : s.data.isEmpty = false := by
      cases hd : s.data with
      | nil => rw [hd] at hjp; exact absurd hjp (by decide)
      | cons a l => rfl
    simp only [isPostedToday]
    rw [if_neg (by rw [hne]; simp)]
    simp only [isPostedTodayList]
    simp
    exact Or.inl (Or.inl hjp)
  · intro hw
    have hmem : "today".toList ∈ wordsOf ((jsTrim (s.data.map Char.toLower)).map sanitizeChar) := by
      simpa using hw
    have hne : s.data.isEmpty = false := by
      cases hd : s.data with
      | nil => rw [hd] at hw; exact absurd hw (by decide)
      | cons a l => rfl
    simp only [isPostedToday]
    rw [if_neg (by rw [hne]; simp)]
    simp only [isPostedTodayList]
    simp
    exact Or.inr (Or.inl ⟨"today".toList, hmem, by decide⟩)
  · intro h23 h59a h59b
    have hLT := isPostedTodayList_iso ⟨2026, 9, 12⟩ (isoChars 2026 10 12 hh mi ss)
      (isoChars_allowed 2026 10 12 hh mi ss)
    have hLY := isPostedTodayList_iso ⟨2026, 9, 12⟩ (isoChars 2026 10 11 hh mi ss)
      (isoChars_allowed 2026 10 11 hh mi ss)
    have hpT := parseLocalDate_isoChars 2026 10 12 hh mi ss (by omega) (by omega) (by omega)
      (by omega) (by omega) h23 h59a h59b
    have hpY := parseLocalDate_isoChars 2026 10 11 hh mi ss (by omega) (by omega) (by omega)
      (by omega) (by omega) h23 h59a h59b
    constructor
    · simp only [isPostedToday]
      rw [if_neg (by
        rw [show (String.mk (isoChars 2026 10 12 hh mi ss)).data.isEmpty = false from rfl]
        simp)]
      rw [hLT, hpT]
      decide
    · simp only [isPostedToday]
      rw [if_neg (by
        rw [show (String.mk (isoChars 2026 10 11 hh mi ss)).data.isEmpty = false from rfl]
        simp)]
      rw [hLY, hpY]
      decide

theorem C6_witness :
    isPostedToday ⟨2026, 9, 12⟩ (some "today") = true ∧
    isPostedToday ⟨2026, 9, 12⟩ (some "Today.") = true ∧
    isPostedToday ⟨2026, 9, 12⟩ (some "just posted now") = true ∧
    isPostedToday ⟨2026, 9, 12⟩ (some "2 weeks ago") = false ∧
    isPostedToday ⟨2026, 9, 12⟩ (some "yesterday") = false ∧
    isPostedToday ⟨2026, 9, 12⟩ (some "minuteman") = false ∧
    isPostedToday ⟨2026, 9, 12⟩ (some "just posted today") = true ∧
    (isPostedToday ⟨2026, 9, 12⟩ (some (String.mk (isoChars 2026 10 12 23 59 59))) = true ∧
     isPostedToday ⟨2026, 9, 12⟩ (some (String.mk (isoChars 2026 10 11 23 59 59))) = false) := by
  have h := C6_isPostedToday_cases ⟨2026, 9, 12⟩ "just posted today" 23 59 59
  exact ⟨h.1, h.2.1, h.2.2.1, h.2.2.2.1, h.2.2.2.2.1, h.2.2.2.2.2.1,
    h.2.2.2.2.2.2.1 (by decide),
    h.2.2.2.2.2.2.2.2 (by decide) (by decide) (by decide)⟩

end DailyJobFetcher
